import Mathlib

/-!
Verification of the ShotGrid/Toolkit Unreal pipeline hooks
(`tk-config-unreal_ww`): shallow embedding of the version-resolution,
app-launch, background-publish and render-wrapper logic, with theorems
settling the specified properties.
-/

namespace TkConfigUnreal

/-! ### Version resolution in `backup/unreal_asset_publish.py`

`UnrealAssetPublishPlugin._get_next_version` calls
`paths_from_template` (which may raise) and then, for each discovered
path, reads `template.get_fields(path).get("version", 0)`.  We embed the
scan over the per-path `version` fields: each discovered path contributes
an `Option Nat` (`none` when its field set has no `version` key, in which
case the code substitutes `0`).  A raised exception anywhere in the
`try` block makes the function return the literal `1`. -/

/-- The `version` field the code reads for one discovered path:
`cur_fields.get("version", 0)`. -/
def curVersion (v : Option Nat) : Nat :=
  v.getD 0

/-- The loop body of `_get_next_version`:
`if cur_version > version: version = cur_version`. -/
def scanStep (version : Nat) (v : Option Nat) : Nat :=
  if curVersion v > version then curVersion v else version

/-- Embedding of `UnrealAssetPublishPlugin._get_next_version`
(backup/unreal_asset_publish.py, lines 253-287).  The argument is the
outcome of `paths_from_template` reduced to the `version` field of each
discovered path; `Except.error` is any exception raised inside the `try`
block, on which the function returns `1`.  Otherwise `version` starts at
`1`, the loop keeps the running maximum, and the result is incremented
once. -/
def get_next_version (scan : Except String (List (Option Nat))) : Nat :=
  match scan with
  | Except.error _ => 1
  | Except.ok existing_versions => (existing_versions.foldl scanStep 1) + 1

/-- The maximum `version` field found among the discovered paths (paths
without a `version` field contribute nothing; `0` when none is found).
This is the quantity the specification's "max" refers to. -/
def maxFoundVersion (vs : List (Option Nat)) : Nat :=
  vs.foldl (fun acc v => max acc (curVersion v)) 0

/-! ### Application launch in `hooks/app_launch.py`

`AppLaunch.execute` looks the engine name up in the module-level
`ENGINES` table (a `KeyError` escapes if the name is absent), builds one
platform-specific shell command, runs it through `os.system`, and
returns `{"command": cmd, "return_code": exit_code}`.  The context /
department queries and the `sys.path` tweak for Unreal on Windows do not
influence the command or the returned dictionary and are elided.  We
track the commands handed to `os.system` so that "raises before any
command is executed" is expressible. -/

/-- The module-level `ENGINES` table of app_launch.py. -/
def ENGINES : List (String × String) :=
  [("tk-houdini", "houdini"),
   ("tk-maya", "maya"),
   ("tk-nuke", "nuke"),
   ("tk-nukestudio", "nuke"),
   ("tk-mari", "mari"),
   ("tk-clarisse", "clarisse"),
   ("tk-unreal", "unreal")]

/-- The operating-system branch taken by `AppLaunch.execute`
(`tank.util.is_linux()` / `tank.util.is_macos()` / else Windows). -/
inductive OSKind where
  | linux
  | macos
  | windows
deriving DecidableEq

/-- The dictionary returned by `AppLaunch.execute`:
`{"command": cmd, "return_code": exit_code}`. -/
structure LaunchResult where
  command : String
  return_code : Int
deriving DecidableEq

/-- The platform branch of `AppLaunch.execute` that builds the shell
command (app_launch.py, lines 76-88). -/
def buildCmd (os : OSKind) (app_path app_args : String) : String :=
  match os with
  | OSKind.linux => app_path ++ " " ++ app_args ++ " &"
  | OSKind.macos =>
      if app_path.endsWith (".app") then
        let base := "open -n -a \"" ++ app_path ++ "\""
        if app_args ≠ "" then base ++ " --args " ++ app_args else base
      else
        app_path ++ " " ++ app_args ++ " &"
  | OSKind.windows => "start /B \"App\" \"" ++ app_path ++ "\" " ++ app_args

/-- Embedding of `AppLaunch.execute` (app_launch.py, lines 42-92).  Here `system` is the
`os.system` oracle.  The second component of the result lists the
commands actually executed, in order; the `ENGINES[engine_name]` lookup
happens before any command is built or run, and a missing key raises
`KeyError`. -/
def execute (os : OSKind) (app_path app_args engine_name : String)
    (system : String → Int) : Except String LaunchResult × List String :=
  match (ENGINES.lookup engine_name : Option String) with
  | none => (Except.error ("KeyError: " ++ engine_name), [])
  | some _app_name =>
      let cmd := buildCmd os app_path app_args
      let exit_code := system cmd
      (Except.ok { command := cmd, return_code := exit_code }, [cmd])

/-- The command the specification claims for each platform: backgrounded
on Linux, `open -n -a` with `--args` only for non-empty arguments on
macOS app bundles, `start /B` on Windows.  Stated from the spec's words,
to be compared with `buildCmd` from the source. -/
def claimedCmd (os : OSKind) (app_path app_args : String) : String :=
  match os with
  | OSKind.linux => app_path ++ " " ++ app_args ++ " &"
  | OSKind.macos =>
      if app_path.endsWith (".app") then
        if app_args ≠ "" then
          "open -n -a \"" ++ app_path ++ "\"" ++ " --args " ++ app_args
        else
          "open -n -a \"" ++ app_path ++ "\""
      else
        app_path ++ " " ++ app_args ++ " &"
  | OSKind.windows => "start /B \"App\" \"" ++ app_path ++ "\" " ++ app_args

/-! ### Version extraction in `basic/publish_asset.py`

`UnrealAssetPublishPlugin.validate` (lines 179-188) derives the
`version` field by `re.compile(r"\.?v(\d+)", re.IGNORECASE).search(path)`
over the item's `path` property, taking `int(match.group(1))` of the
first match and defaulting to `1` when the path is falsy or there is no
match.  We transcribe the regex search over the path's character list:
`re.search` tries each start position left to right; at one position the
pattern consumes an optional literal dot, then `v` (case-insensitively),
then a maximal non-empty digit run which is the captured group. -/

/-- Case-insensitive match of the literal `v` in the pattern. -/
def isV (c : Char) : Bool :=
  c = 'v' || c = 'V'

/-- ASCII decimal digit, as matched by `\d` on these paths. -/
def isDigitCh (c : Char) : Bool :=
  '0' ≤ c && c ≤ '9'

/-- Value of `int(...)` on a digit run. -/
def digitsToNat (ds : List Char) : Nat :=
  ds.foldl (fun n c => n * 10 + (c.toNat - ('0').toNat)) 0

/-- Attempt `v(\d+)` at the head of the list: a `v` or `V` followed by a
non-empty digit run; the captured group is the maximal digit run. -/
def matchVDigits (cs : List Char) : Option Nat :=
  match cs with
  | [] => none
  | c :: rest =>
      if isV c then
        match rest with
        | [] => none
        | d :: _ =>
            if isDigitCh d then some (digitsToNat (rest.takeWhile isDigitCh))
            else none
      else none

/-- Attempt the full pattern `\.?v(\d+)` at one start position: the
optional dot is consumed greedily when present (backtracking to the
dot-less alternative would require a `v` where the dot stands, which
fails, so the captured group is unaffected). -/
def matchHere (cs : List Char) : Option Nat :=
  match cs with
  | [] => none
  | c :: rest => if c = '.' then matchVDigits rest else matchVDigits (c :: rest)

/-- Search, as `re.search` of `\.?v(\d+)` (case-insensitive) does: try each start
position left to right and return the first captured group as an
integer. -/
def reSearchVNum (cs : List Char) : Option Nat :=
  match cs with
  | [] => none
  | c :: rest =>
      match matchHere (c :: rest) with
      | some n => some n
      | none => reSearchVNum rest

/-- Lines 179-188 of `basic/publish_asset.py`: `version = 1`, then if
`path` is truthy and the regex matches, `version = int(match.group(1))`.
`none` models an absent `path` property (and `some ""` the falsy empty
string, on which the regex is never run). -/
def versionFromPath (path : Option String) : Nat :=
  match path with
  | none => 1
  | some p =>
      if p = "" then 1
      else
        match reSearchVNum p.data with
        | some n => n
        | none => 1

/-- Is there a `v`/`V` immediately followed by a digit anywhere?  This
is exactly when `\.?v(\d+)` has a match. -/
def hasVDigit (cs : List Char) : Bool :=
  match cs with
  | [] => false
  | _ :: [] => false
  | c :: d :: rest => (isV c && isDigitCh d) || hasVDigit (d :: rest)

/-! ### Background publish bookkeeping in `backup/post_phase.py`

`PostPhase.post_publish` iterates the tree (exporting FBX for
`maya.fbx.unreal` items, which touches neither of the two YAML files nor
any `uuid` property), then returns early unless the root item's
`bg_processing` property is truthy and its `in_bg_process` property is
falsy.  On the background path it walks every item, draws a fresh UUID
for the item and one per active task, sets `item.properties.uuid` only
when the item collected at least one active task, then creates
`tempfile.mkdtemp(dir=os.path.join(bg_publish_app.cache_location,
current_engine.name))` and writes `publish_tree.yml` and `monitor.yml`
inside it.  Thumbnail download and the monitor-data payload are elided;
the file writes and the per-item `uuid` assignment are kept. -/

/-- A task of a publish item: only its `active` flag matters here. -/
structure PubTask where
  name : String
  active : Bool
deriving DecidableEq

/-- A publish item as `post_publish` sees it: its tasks and its
(initially typically absent) `uuid` property. -/
structure PubItem where
  name : String
  tasks : List PubTask
  uuid : Option String
deriving DecidableEq

/-- The number of UUIDs drawn while processing one item: one for the
item itself plus one per active task. -/
def uuidsDrawn (it : PubItem) : Nat :=
  1 + (it.tasks.filter (fun t => t.active)).length

/-- The item loop of `post_publish` (lines 83-126): each item draws
`item_uuid = str(uuid.uuid4())` from the supply `gen` at the running
counter, each active task draws one more, and `item.properties.uuid` is
set to `item_uuid` exactly when `item_data["tasks"]` ended up
non-empty, i.e. when some task is active. -/
def assignUuids (gen : Nat → String) : Nat → List PubItem → List PubItem
  | _, [] => []
  | k, it :: rest =>
      let item_uuid := gen k
      let it' :=
        if it.tasks.any (fun t => t.active) then { it with uuid := some item_uuid }
        else it
      it' :: assignUuids gen (k + uuidsDrawn it) rest

/-- Embedding of `PostPhase.post_publish` (backup/post_phase.py, lines 41-148),
reduced to its observable effects: the pair of YAML file paths written
(or `none` when the guard `if not bg_processing or in_bg_process:
return` fires) and the items with their possibly-updated `uuid`
property.  `mkdtemp` is the `tempfile.mkdtemp` oracle, applied to
`os.path.join(bg_publish_app.cache_location, current_engine.name)`. -/
def post_publish (bg_processing in_bg_process : Bool) (items : List PubItem)
    (cache_location engine_name : String)
    (mkdtemp : String → String) (gen : Nat → String) :
    Option (String × String) × List PubItem :=
  if !bg_processing || in_bg_process then (none, items)
  else
    let items' := assignUuids gen 0 items
    let root_folder_path := cache_location ++ "/" ++ engine_name
    let tmp_folder_path := mkdtemp root_folder_path
    (some (tmp_folder_path ++ "/publish_tree.yml",
           tmp_folder_path ++ "/monitor.yml"),
     items')

/-! ### Render wrappers in `basic/publish_movie.py`

Both `_unreal_render_sequence_with_sequencer` (lines 610-681) and
`_unreal_render_sequence_with_movie_queue` (lines 683-845) end with
`subprocess.call(...)` followed by
`return os.path.isfile(output_path), output_path`.  The filesystem is a
predicate on paths, `run` is the oracle for what the spawned subprocess
does to it.  The Sequencer wrapper first deletes a pre-existing output
file and returns `(False, None)` when `os.remove` raises `OSError`; the
Movie Queue wrapper raises `ValueError` when a requested shot name is
not in the sequence.  Command-line assembly and manifest renaming do not
affect the returned pair and are elided. -/

/-- A filesystem: which paths currently exist as files. -/
def FS : Type := String → Bool

/-- Remove one path from a filesystem (`os.remove`). -/
def fsRemove (fs : FS) (p : String) : FS :=
  fun q => if q = p then false else fs q

/-- Embedding of `UnrealMoviePublishPlugin._unreal_render_sequence_with_sequencer`
reduced to its output-file protocol: delete a pre-existing output file
(returning `(False, None)` when the deletion raises `OSError`, modelled
by `removeOk = false`), run the subprocess, then report
`(os.path.isfile(output_path), output_path)`. -/
def renderWithSequencer (fs : FS) (run : FS → FS) (removeOk : Bool)
    (output_path : String) : Bool × Option String :=
  if fs output_path then
    if removeOk then
      let fs2 := run (fsRemove fs output_path)
      (fs2 output_path, some output_path)
    else
      (false, none)
  else
    let fs2 := run fs
    (fs2 output_path, some output_path)

/-- Embedding of `UnrealMoviePublishPlugin._unreal_render_sequence_with_movie_queue`
reduced to its output-file protocol: when a `shot_name` is given but not
among the sequence's shots, `ValueError` is raised; otherwise the
subprocess runs and the function returns
`(os.path.isfile(output_path), output_path)`. -/
def renderWithMovieQueue (fs : FS) (run : FS → FS) (shots : List String)
    (shot_name : Option String) (output_path : String) :
    Except String (Bool × String) :=
  match shot_name with
  | some s =>
      if shots.contains s then
        Except.ok ((run fs) output_path, output_path)
      else
        Except.error ("ValueError: shot " ++ s ++ " not found")
  | none => Except.ok ((run fs) output_path, output_path)

/-! ### Maya playblast viewport handling in `basic/publish_movie.py`

`UnrealMoviePublishPlugin._publish_maya` (lines 439-521): when the
focused panel is a `modelPanel`, the three viewport settings
`displayAppearance`, `displayTextures` and `displayLights` are queried
and saved, overridden to `("smoothShaded", True, "all")` for the
playblast, and restored one by one in the `finally` block — which runs
both when the playblast returns and when it raises (the `except` clause
turns the exception into a `False` return).  The playblast itself is an
oracle that may change the viewport and either reports whether the
output file exists or raises. -/

/-- The three `modelEditor` viewport settings saved and restored. -/
structure Viewport where
  displayAppearance : String
  displayTextures : Bool
  displayLights : String
deriving DecidableEq

/-- The high-quality settings applied before the playblast
(`displayAppearance="smoothShaded", displayTextures=True,
displayLights="all"`). -/
def playblastViewport : Viewport :=
  { displayAppearance := "smoothShaded"
    displayTextures := true
    displayLights := "all" }

/-- Embedding of `_publish_maya`, reduced to its viewport protocol.  The `panelType` is
`cmds.getPanel(typeOf=current_panel)` (a panel's type is immutable, so
the save-time and restore-time checks agree).  `playblast` returns the
viewport as the spawned playblast left it together with
`Except.ok (os.path.exists(temp_movie))`, or `Except.error` when it
raised.  The returned pair is the function's boolean result and the
final viewport state. -/
def publishMaya (panelType : String) (vp : Viewport)
    (playblast : Viewport → Viewport × Except String Bool) :
    Bool × Viewport :=
  if panelType = "modelPanel" then
    let origAppearance := vp.displayAppearance
    let origTextures := vp.displayTextures
    let origLights := vp.displayLights
    let r := playblast playblastViewport
    let result :=
      match r.2 with
      | Except.ok fileExists => fileExists
      | Except.error _ => false
    (result,
     { displayAppearance := origAppearance
       displayTextures := origTextures
       displayLights := origLights })
  else
    let r := playblast vp
    let result :=
      match r.2 with
      | Except.ok fileExists => fileExists
      | Except.error _ => false
    (result, r.1)

/-! ## Theorems -/

lemma scanStep_eq_max (version : Nat) (v : Option Nat) :
    scanStep version v = max version (curVersion v) := by
  unfold scanStep
  rcases Nat.lt_or_ge version (curVersion v) with h | h
  · simp [h, Nat.max_eq_right (Nat.le_of_lt h)]
  · have hng : ¬ curVersion v > version := Nat.not_lt.mpr h
    simp [hng, Nat.max_eq_left h]

lemma foldl_max_start (vs : List (Option Nat)) : ∀ a : Nat,
    vs.foldl (fun acc v => max acc (curVersion v)) a =
      max a (vs.foldl (fun acc v => max acc (curVersion v)) 0) := by
  induction vs with
  | nil => intro a; simp
  | cons v rest ih =>
      intro a
      simp only [List.foldl_cons]
      rw [ih (max a (curVersion v)), ih (max 0 (curVersion v))]
      simp [Nat.max_assoc]

lemma scanStep_fun_eq : scanStep = fun acc v => max acc (curVersion v) :=
  funext fun a => funext fun v => scanStep_eq_max a v

lemma get_next_version_ok (vs : List (Option Nat)) :
    get_next_version (Except.ok vs) = max 1 (maxFoundVersion vs) + 1 := by
  show (vs.foldl scanStep 1) + 1 = max 1 (maxFoundVersion vs) + 1
  rw [scanStep_fun_eq, maxFoundVersion, foldl_max_start]

lemma curVersion_le_maxFound (vs : List (Option Nat)) :
    ∀ ov ∈ vs, curVersion ov ≤ maxFoundVersion vs := by
  induction vs with
  | nil => intro ov h; cases h
  | cons v rest ih =>
      intro ov h
      have hstep : maxFoundVersion (v :: rest) =
          max (max 0 (curVersion v)) (maxFoundVersion rest) := by
        show (v :: rest).foldl (fun acc w => max acc (curVersion w)) 0 = _
        simp only [List.foldl_cons]
        exact foldl_max_start rest (max 0 (curVersion v))
      rcases List.mem_cons.mp h with h | h
      · subst h
        rw [hstep]
        exact le_max_of_le_left (le_max_right _ _)
      · rw [hstep]
        exact le_max_of_le_right (ih ov h)

/-- C1 counterexample: the claim "the returned version equals the
maximum `version` field found among the discovered paths plus one" fails
on a scan that discovers a single path whose `version` field is `0`: the
maximum found is `0`, so the claim demands `1`, but `_get_next_version`
returns `2` (its running maximum starts at `1`). -/
theorem get_next_version_counterexample :
    get_next_version (Except.ok [some 0]) = 2 ∧
      maxFoundVersion [some 0] + 1 = 1 ∧
      get_next_version (Except.ok [some 0]) ≠ maxFoundVersion [some 0] + 1 := by
  decide

/-- C1 (amended): for every successful scan,
`UnrealAssetPublishPlugin._get_next_version` returns
`max 1 m + 1` where `m` is the maximum `version` field found among the
discovered paths (`0` when none is found); in particular this is `m + 1`
whenever `m ≥ 1`, and `2` — not an undefined "max of nothing plus one" —
when the set of discovered paths is empty. -/
theorem get_next_version_amended (vs : List (Option Nat)) :
    get_next_version (Except.ok vs) = max 1 (maxFoundVersion vs) + 1 ∧
      get_next_version (Except.ok []) = 2 :=
  ⟨get_next_version_ok vs, rfl⟩

/-- C2: if `paths_from_template` (or anything else in the `try` block)
raises, `_get_next_version` swallows the exception and returns exactly
`1`, whatever the exception was. -/
theorem get_next_version_swallows_exception (e : String) :
    get_next_version (Except.error e) = 1 :=
  rfl

/-- C3: for every successful scan, the version returned by
`_get_next_version` is a positive integer strictly greater than every
`version` field discovered among the existing publishes. -/
theorem get_next_version_exceeds_discovered (vs : List (Option Nat)) :
    0 < get_next_version (Except.ok vs) ∧
      ∀ ov ∈ vs, ∀ n : Nat, ov = some n → n < get_next_version (Except.ok vs) := by
  constructor
  · rw [get_next_version_ok]
    exact Nat.succ_pos _
  · intro ov hmem n hn
    have h1 : curVersion ov ≤ maxFoundVersion vs := curVersion_le_maxFound vs ov hmem
    have h2 : curVersion ov = n := by rw [hn]; rfl
    rw [get_next_version_ok]
    calc n = curVersion ov := h2.symm
    _ ≤ maxFoundVersion vs := h1
    _ ≤ max 1 (maxFoundVersion vs) := le_max_right _ _
    _ < max 1 (maxFoundVersion vs) + 1 := Nat.lt_succ_self _

/-- Witness for C3 at a concrete scan. -/
theorem get_next_version_exceeds_discovered_witness :
    some 3 ∈ [some 3, none] ∧
      0 < get_next_version (Except.ok [some 3, none]) ∧
      3 < get_next_version (Except.ok [some 3, none]) :=
  ⟨by decide,
   (get_next_version_exceeds_discovered [some 3, none]).1,
   (get_next_version_exceeds_discovered [some 3, none]).2 (some 3) (by decide) 3 rfl⟩

lemma buildCmd_eq_claimedCmd (os : OSKind) (app_path app_args : String) :
    buildCmd os app_path app_args = claimedCmd os app_path app_args := by
  cases os with
  | linux => rfl
  | windows => rfl
  | macos =>
      show buildCmd OSKind.macos app_path app_args = _
      unfold buildCmd claimedCmd
      by_cases happ : app_path.endsWith (".app")
      · by_cases hargs : app_args ≠ "" <;> simp [happ, hargs]
      · simp [happ]

/-- C4: with an engine name present in `ENGINES`, `AppLaunch.execute`
builds exactly the platform command the specification describes
(`claimedCmd`), executes exactly that one command through `os.system`,
and returns the dictionary holding that command string under
`"command"` and the command's OS exit code under `"return_code"`. -/
theorem execute_builds_claimed_command (os : OSKind)
    (app_path app_args engine_name app_name : String) (system : String → Int)
    (h : ENGINES.lookup engine_name = some app_name) :
    execute os app_path app_args engine_name system =
      (Except.ok { command := claimedCmd os app_path app_args,
                   return_code := system (claimedCmd os app_path app_args) },
       [claimedCmd os app_path app_args]) := by
  unfold execute
  rw [h, buildCmd_eq_claimedCmd]

/-- Witness for C4: launching Maya on Linux. -/
theorem execute_builds_claimed_command_witness :
    ENGINES.lookup ("tk-maya") = some ("maya") ∧
      execute OSKind.linux "/usr/autodesk/maya/bin/maya" "-proj shots" "tk-maya"
          (fun _ => (0 : Int)) =
        (Except.ok { command := "/usr/autodesk/maya/bin/maya -proj shots &",
                     return_code := 0 },
         ["/usr/autodesk/maya/bin/maya -proj shots &"]) := by
  constructor
  · decide
  · rw [execute_builds_claimed_command OSKind.linux "/usr/autodesk/maya/bin/maya"
        "-proj shots" "tk-maya" "maya" (fun _ => (0 : Int)) (by decide)]
    rfl

/-- C9: for an engine name that is none of the seven keys of `ENGINES`,
the lookup `ENGINES[engine_name]` raises `KeyError` and `execute`
terminates before any shell command is built or executed (the list of
executed commands is empty). -/
theorem execute_keyerror_on_unknown_engine (os : OSKind)
    (app_path app_args engine_name : String) (system : String → Int)
    (h : engine_name ∉ ["tk-houdini", "tk-maya", "tk-nuke", "tk-nukestudio",
                        "tk-mari", "tk-clarisse", "tk-unreal"]) :
    execute os app_path app_args engine_name system =
      (Except.error ("KeyError: " ++ engine_name), []) := by
  simp only [List.mem_cons, List.mem_singleton, not_or] at h
  obtain ⟨h1, h2, h3, h4, h5, h6, h7, h8⟩ := h
  have b1 : (engine_name == "tk-houdini") = false := beq_eq_false_iff_ne.mpr h1
  have b2 : (engine_name == "tk-maya") = false := beq_eq_false_iff_ne.mpr h2
  have b3 : (engine_name == "tk-nuke") = false := beq_eq_false_iff_ne.mpr h3
  have b4 : (engine_name == "tk-nukestudio") = false := beq_eq_false_iff_ne.mpr h4
  have b5 : (engine_name == "tk-mari") = false := beq_eq_false_iff_ne.mpr h5
  have b6 : (engine_name == "tk-clarisse") = false := beq_eq_false_iff_ne.mpr h6
  have b7 : (engine_name == "tk-unreal") = false := beq_eq_false_iff_ne.mpr h7
  have hlook : (ENGINES.lookup engine_name : Option String) = none := by
    simp [ENGINES, List.lookup, b1, b2, b3, b4, b5, b6, b7]
  unfold execute
  rw [hlook]

/-- Witness for C9: an engine missing from the table. -/
theorem execute_keyerror_on_unknown_engine_witness :
    "tk-blender" ∉ ["tk-houdini", "tk-maya", "tk-nuke", "tk-nukestudio",
                    "tk-mari", "tk-clarisse", "tk-unreal"] ∧
      execute OSKind.windows "C:/blender/blender.exe" "" "tk-blender"
          (fun _ => (0 : Int)) =
        (Except.error ("KeyError: " ++ "tk-blender"), []) := by
  constructor
  · decide
  · rw [execute_keyerror_on_unknown_engine OSKind.windows "C:/blender/blender.exe"
        "" "tk-blender" (fun _ => (0 : Int)) (by decide)]

/-- C5: whenever either render wrapper reaches its `subprocess.call`,
the boolean success result is exactly `os.path.isfile(output_path)`
evaluated on the filesystem as the subprocess left it, paired with
`output_path`; in particular a subprocess that produced no output file
yields `(False, output_path)`.  For the Sequencer wrapper the subprocess
is reached unless a pre-existing output file could not be deleted; for
the Movie Queue wrapper it is reached unless a requested shot name is
absent from the sequence. -/
theorem render_success_is_isfile (fs : FS) (run : FS → FS) (removeOk : Bool)
    (output_path : String) (shots : List String) (shot_name : Option String) :
    (fs output_path = false ∨ removeOk = true →
      renderWithSequencer fs run removeOk output_path =
        ((run (if fs output_path then fsRemove fs output_path else fs)) output_path,
         some output_path)) ∧
    (shot_name = none ∨ (∃ s, shot_name = some s ∧ shots.contains s = true) →
      renderWithMovieQueue fs run shots shot_name output_path =
        Except.ok ((run fs) output_path, output_path)) := by
  constructor
  · intro h
    by_cases hf : fs output_path = true
    · have hro : removeOk = true := by
        rcases h with h | h
        · rw [hf] at h; cases h
        · exact h
      simp [renderWithSequencer, hf, hro]
    · have hf' : fs output_path = false := by
        cases hfv : fs output_path
        · rfl
        · exact absurd hfv hf
      simp [renderWithSequencer, hf']
  · intro h
    rcases h with h | ⟨s, hs, hmem⟩
    · subst h
      rfl
    · subst hs
      have hmem' : s ∈ shots := by simpa using hmem
      simp [renderWithMovieQueue, hmem, hmem']

/-- Witness for C5 on a concrete filesystem and a subprocess oracle that
leaves the filesystem unchanged: the output file does not appear, so
both wrappers report failure paired with the output path. -/
theorem render_success_is_isfile_witness :
    ((fun _ => false : FS) "/shots/sq01.mov" = false ∨ true = true) ∧
      renderWithSequencer (fun _ => false) (fun f => f) true "/shots/sq01.mov" =
        (false, some "/shots/sq01.mov") ∧
      (some "shot010" = none ∨
        (∃ s, some "shot010" = some s ∧ ["shot010"].contains s = true)) ∧
      renderWithMovieQueue (fun _ => false) (fun f => f) ["shot010"]
          (some "shot010") "/shots/sq01.mov" =
        Except.ok (false, "/shots/sq01.mov") := by
  refine ⟨Or.inl rfl, ?_, Or.inr ⟨"shot010", rfl, by decide⟩, ?_⟩
  · rw [(render_success_is_isfile (fun _ => false) (fun f => f) true
      "/shots/sq01.mov" ["shot010"] (some "shot010")).1 (Or.inl rfl)]
    rfl
  · rw [(render_success_is_isfile (fun _ => false) (fun f => f) true
      "/shots/sq01.mov" ["shot010"] (some "shot010")).2
      (Or.inr ⟨"shot010", rfl, by decide⟩)]

/-- C6: `PostPhase.post_publish` writes the pair
(`publish_tree.yml`, `monitor.yml`) into a fresh `mkdtemp` directory
under `os.path.join(bg_publish_app.cache_location, current_engine.name)`
exactly when the root item's `bg_processing` property is truthy and its
`in_bg_process` property is falsy, and writes neither file in every
other case. -/
theorem post_publish_writes_iff_background (bg_processing in_bg_process : Bool)
    (items : List PubItem) (cache_location engine_name : String)
    (mkdtemp : String → String) (gen : Nat → String) :
    (post_publish bg_processing in_bg_process items cache_location engine_name
        mkdtemp gen).1 =
      if bg_processing && !in_bg_process then
        some (mkdtemp (cache_location ++ "/" ++ engine_name) ++ "/publish_tree.yml",
              mkdtemp (cache_location ++ "/" ++ engine_name) ++ "/monitor.yml")
      else none := by
  cases bg_processing <;> cases in_bg_process <;> simp [post_publish]

lemma assignUuids_spec (gen : Nat → String) (items : List PubItem) : ∀ k : Nat,
    List.Forall₂ (fun (a b : PubItem) =>
        (a.tasks.any (fun t => t.active) = true → b.uuid.isSome = true) ∧
        (a.tasks.any (fun t => t.active) = false → b.uuid = a.uuid))
      items (assignUuids gen k items) := by
  induction items with
  | nil => intro k; exact List.Forall₂.nil
  | cons it rest ih =>
      intro k
      refine List.Forall₂.cons ?_ (ih (k + uuidsDrawn it))
      constructor
      · intro ha
        simp [ha]
      · intro ha
        simp [ha]

/-- C8: `post_publish` sets the `uuid` property only on the
background-publish path (root `bg_processing` truthy, `in_bg_process`
falsy) and only on items with at least one active task; every other
item, and every item on a run where the background path is not taken,
keeps its previous (typically unset) `uuid` property. -/
theorem post_publish_uuid_assignment (bg_processing in_bg_process : Bool)
    (items : List PubItem) (cache_location engine_name : String)
    (mkdtemp : String → String) (gen : Nat → String) :
    List.Forall₂ (fun (a b : PubItem) =>
        ((bg_processing && !in_bg_process) = true →
          a.tasks.any (fun t => t.active) = true → b.uuid.isSome = true) ∧
        ((bg_processing && !in_bg_process) = false → b.uuid = a.uuid) ∧
        (a.tasks.any (fun t => t.active) = false → b.uuid = a.uuid))
      items
      (post_publish bg_processing in_bg_process items cache_location engine_name
        mkdtemp gen).2 := by
  by_cases hbg : (bg_processing && !in_bg_process) = true
  · have hguard : (!bg_processing || in_bg_process) = false := by
      cases bg_processing <;> cases in_bg_process <;> simp_all
    have hsnd : (post_publish bg_processing in_bg_process items cache_location
        engine_name mkdtemp gen).2 = assignUuids gen 0 items := by
      simp [post_publish, hguard]
    rw [hsnd]
    have hspec := assignUuids_spec gen items 0
    refine List.Forall₂.imp ?_ hspec
    intro a b hab
    refine ⟨fun _ ha => hab.1 ha, fun hfalse => ?_, hab.2⟩
    rw [hbg] at hfalse
    cases hfalse
  · have hbg' : (bg_processing && !in_bg_process) = false := by
      cases hv : (bg_processing && !in_bg_process)
      · rfl
      · exact absurd hv hbg
    have hguard : (!bg_processing || in_bg_process) = true := by
      cases bg_processing <;> cases in_bg_process <;> simp_all
    have hsnd : (post_publish bg_processing in_bg_process items cache_location
        engine_name mkdtemp gen).2 = items := by
      simp [post_publish, hguard]
    rw [hsnd]
    rw [List.forall₂_same]
    intro a _
    exact ⟨fun htrue _ => absurd htrue (by rw [hbg']; exact Bool.false_ne_true),
           fun _ => rfl, fun _ => rfl⟩

/-- Witness for C8 on a concrete tree: on the background path an item
with an active task gets a `uuid`, an item with no active task and a
run without the background flag keep `uuid` unset. -/
theorem post_publish_uuid_assignment_witness :
    List.Forall₂ (fun (a b : PubItem) =>
        ((true && !false) = true →
          a.tasks.any (fun t => t.active) = true → b.uuid.isSome = true) ∧
        ((true && !false) = false → b.uuid = a.uuid) ∧
        (a.tasks.any (fun t => t.active) = false → b.uuid = a.uuid))
      [{ name := "item1", tasks := [{ name := "t1", active := true }], uuid := none },
       { name := "item2", tasks := [{ name := "t2", active := false }], uuid := none }]
      (post_publish true false
        [{ name := "item1", tasks := [{ name := "t1", active := true }], uuid := none },
         { name := "item2", tasks := [{ name := "t2", active := false }], uuid := none }]
        "/cache/bg" "tk-unreal" (fun d => d ++ "/tmpA") (fun k => toString k)).2 :=
  post_publish_uuid_assignment true false
    [{ name := "item1", tasks := [{ name := "t1", active := true }], uuid := none },
     { name := "item2", tasks := [{ name := "t2", active := false }], uuid := none }]
    "/cache/bg" "tk-unreal" (fun d => d ++ "/tmpA") (fun k => toString k)

/-- C10: when the focused panel is a `modelPanel`, `_publish_maya`
restores `displayAppearance`, `displayTextures` and `displayLights` to
their saved original values on exit, whatever the playblast does to the
viewport — both when it returns (successfully or not) and when it
raises, since the restoration sits in the `finally` block. -/
theorem publish_maya_restores_viewport (vp : Viewport)
    (playblast : Viewport → Viewport × Except String Bool) :
    (publishMaya "modelPanel" vp playblast).2 = vp ∧
      (∀ (vp2 : Viewport) (fileExists : Bool),
        publishMaya "modelPanel" vp (fun _ => (vp2, Except.ok fileExists)) =
          (fileExists, vp)) ∧
      (∀ (vp2 : Viewport) (e : String),
        publishMaya "modelPanel" vp (fun _ => (vp2, Except.error e)) =
          (false, vp)) := by
  refine ⟨?_, ?_, ?_⟩
  · cases vp
    simp [publishMaya]
  · intro vp2 fileExists
    cases vp
    simp [publishMaya]
  · intro vp2 e
    cases vp
    simp [publishMaya]

lemma isV_ne_dot {c : Char} (h : isV c = true) : c ≠ '.' := by
  have h' : c = 'v' ∨ c = 'V' := by simpa [isV] using h
  rcases h' with h' | h' <;> subst h' <;> decide

lemma isV_not_digit {c : Char} (h : isV c = true) : isDigitCh c = false := by
  have h' : c = 'v' ∨ c = 'V' := by simpa [isV] using h
  rcases h' with h' | h' <;> subst h' <;> decide

lemma takeWhile_append_all {p : Char → Bool} (l1 l2 : List Char)
    (h : ∀ x ∈ l1, p x = true) :
    (l1 ++ l2).takeWhile p = l1 ++ l2.takeWhile p := by
  induction l1 with
  | nil => simp
  | cons a l ih =>
      have ha : p a = true := h a (List.mem_cons_self a l)
      simp only [List.cons_append, List.takeWhile_cons, ha, if_true]
      rw [ih (fun x hx => h x (List.mem_cons_of_mem a hx))]

lemma takeWhile_eq_nil_of_head {p : Char → Bool} (l : List Char)
    (h : ∀ x ∈ l.take 1, p x = false) : l.takeWhile p = [] := by
  cases l with
  | nil => rfl
  | cons a l' =>
      have ha : p a = false := h a (by simp)
      simp [List.takeWhile_cons, ha]

lemma matchVDigits_match (v d : Char) (ds post : List Char)
    (hv : isV v = true)
    (hdig : ∀ x ∈ d :: ds, isDigitCh x = true)
    (hpost : ∀ x ∈ post.take 1, isDigitCh x = false) :
    matchVDigits (v :: ((d :: ds) ++ post)) = some (digitsToNat (d :: ds)) := by
  have hd0 : isDigitCh d = true := hdig d (List.mem_cons_self d ds)
  show matchVDigits (v :: (d :: (ds ++ post))) = _
  simp only [matchVDigits, hv, if_true, hd0]
  rw [show (d :: (ds ++ post)) = (d :: ds) ++ post from rfl,
      takeWhile_append_all (d :: ds) post hdig,
      takeWhile_eq_nil_of_head post hpost, List.append_nil]

lemma matchVDigits_none_of (c : Char) (l : List Char)
    (h : isV c = true → ∀ d l', l = d :: l' → isDigitCh d = false) :
    matchVDigits (c :: l) = none := by
  by_cases hv : isV c
  · cases l with
    | nil => simp [matchVDigits, hv]
    | cons d l' => simp [matchVDigits, hv, h hv d l' rfl]
  · simp [matchVDigits, hv]

lemma hasVDigit_cons_cons (c d : Char) (rest : List Char) :
    hasVDigit (c :: d :: rest) = ((isV c && isDigitCh d) || hasVDigit (d :: rest)) :=
  rfl

lemma hasVDigit_tail (c : Char) (l : List Char)
    (h : hasVDigit (c :: l) = false) : hasVDigit l = false := by
  cases l with
  | nil => rfl
  | cons d l' =>
      rw [hasVDigit_cons_cons] at h
      exact (Bool.or_eq_false_iff.mp h).2

lemma hasVDigit_head (c d : Char) (l : List Char)
    (h : hasVDigit (c :: d :: l) = false) :
    isV c = false ∨ isDigitCh d = false := by
  rw [hasVDigit_cons_cons] at h
  have h1 : (isV c && isDigitCh d) = false := (Bool.or_eq_false_iff.mp h).1
  exact Bool.and_eq_false_iff.mp h1

lemma pair_head_not_digit (x v : Char) (xs tail2 : List Char)
    (hv : isV v = true)
    (h : hasVDigit ((x :: xs) ++ [v]) = false) :
    isV x = true → ∀ d l', xs ++ v :: tail2 = d :: l' → isDigitCh d = false := by
  intro hx d l' heq
  cases xs with
  | nil =>
      have hd : v = d := by
        simpa using congrArg (fun ys => ys.headD ' ') heq
      rw [← hd]
      exact isV_not_digit hv
  | cons f xs' =>
      have hd : f = d := by
        simpa using congrArg (fun ys => ys.headD ' ') heq
      have hpair : isV x = false ∨ isDigitCh f = false :=
        hasVDigit_head x f (xs' ++ [v]) h
      rcases hpair with hpair | hpair
      · rw [hx] at hpair; cases hpair
      · rw [← hd]; exact hpair

lemma reSearch_none (cs : List Char) (h : hasVDigit cs = false) :
    reSearchVNum cs = none := by
  induction cs with
  | nil => rfl
  | cons c rest ih =>
      have htail : hasVDigit rest = false := hasVDigit_tail c rest h
      have hrest : reSearchVNum rest = none := ih htail
      have hmv_cons : matchVDigits (c :: rest) = none := by
        apply matchVDigits_none_of
        intro hvc d l' heq
        subst heq
        rcases hasVDigit_head c d l' h with hp | hp
        · rw [hvc] at hp; cases hp
        · exact hp
      have hmv_rest : matchVDigits rest = none := by
        cases rest with
        | nil => rfl
        | cons d l' =>
            apply matchVDigits_none_of
            intro hvd e l'' heq
            subst heq
            rcases hasVDigit_head d e l'' htail with hp | hp
            · rw [hvd] at hp; cases hp
            · exact hp
      show (match matchHere (c :: rest) with
            | some n => some n
            | none => reSearchVNum rest) = none
      by_cases hc : c = '.'
      · simp [matchHere, hc, hmv_rest, hrest]
      · simp [matchHere, hc, hmv_cons, hrest]

lemma reSearchVNum_cons (c : Char) (rest : List Char) :
    reSearchVNum (c :: rest) =
      match matchHere (c :: rest) with
      | some n => some n
      | none => reSearchVNum rest :=
  rfl

lemma matchHere_cons (c : Char) (rest : List Char) :
    matchHere (c :: rest) =
      if c = '.' then matchVDigits rest else matchVDigits (c :: rest) :=
  rfl

lemma reSearch_first (v : Char) (digits post : List Char)
    (hv : isV v = true) (hne : digits ≠ [])
    (hdig : ∀ x ∈ digits, isDigitCh x = true)
    (hpost : ∀ x ∈ post.take 1, isDigitCh x = false) :
    ∀ pre : List Char, hasVDigit (pre ++ [v]) = false →
      reSearchVNum (pre ++ v :: (digits ++ post)) = some (digitsToNat digits) := by
  obtain ⟨d, ds, rfl⟩ : ∃ d ds, digits = d :: ds := by
    cases digits with
    | nil => exact absurd rfl hne
    | cons d ds => exact ⟨d, ds, rfl⟩
  have hmatch : matchVDigits (v :: ((d :: ds) ++ post)) = some (digitsToNat (d :: ds)) :=
    matchVDigits_match v d ds post hv hdig hpost
  intro pre
  induction pre with
  | nil =>
      intro _
      have hvdot : ¬ v = '.' := isV_ne_dot hv
      show reSearchVNum (v :: ((d :: ds) ++ post)) = some (digitsToNat (d :: ds))
      rw [reSearchVNum_cons, matchHere_cons, if_neg hvdot, hmatch]
  | cons c pre' ih =>
      intro hpre
      have hpre' : hasVDigit (pre' ++ [v]) = false :=
        hasVDigit_tail c (pre' ++ [v]) hpre
      have hrec : reSearchVNum (pre' ++ v :: ((d :: ds) ++ post)) =
          some (digitsToNat (d :: ds)) := ih hpre'
      show reSearchVNum (c :: (pre' ++ v :: ((d :: ds) ++ post))) =
          some (digitsToNat (d :: ds))
      rw [reSearchVNum_cons, matchHere_cons]
      by_cases hc : c = '.'
      · rw [if_pos hc]
        cases pre' with
        | nil =>
            show (match matchVDigits (v :: ((d :: ds) ++ post)) with
                  | some n => some n
                  | none => reSearchVNum ([] ++ v :: ((d :: ds) ++ post))) =
                some (digitsToNat (d :: ds))
            rw [hmatch]
        | cons e pre'' =>
            have hnone : matchVDigits (e :: (pre'' ++ v :: ((d :: ds) ++ post))) = none :=
              matchVDigits_none_of e _
                (pair_head_not_digit e v pre'' ((d :: ds) ++ post) hv hpre')
            show (match matchVDigits (e :: (pre'' ++ v :: ((d :: ds) ++ post))) with
                  | some n => some n
                  | none => reSearchVNum ((e :: pre'') ++ v :: ((d :: ds) ++ post))) =
                some (digitsToNat (d :: ds))
            rw [hnone]
            exact hrec
      · rw [if_neg hc]
        have hnone : matchVDigits (c :: (pre' ++ v :: ((d :: ds) ++ post))) = none :=
          matchVDigits_none_of c _
            (pair_head_not_digit c v pre' ((d :: ds) ++ post) hv hpre)
        rw [hnone]
        exact hrec

/-- C7: in `validate` of the basic `UnrealAssetPublishPlugin`,
`fields["version"]` is the integer captured by the first
case-insensitive match of `\.?v(\d+)` in the item's `path` property —
decomposed here as a leading segment containing no `v`/`V`-followed-by-digit
occurrence, the matched `v`, the captured digit run, and a remainder not
starting with a digit — and it is `1` when the path is absent or
contains no such occurrence; no scan of existing publishes is involved
(`versionFromPath` depends on the path alone). -/
theorem validate_version_from_path (p : String)
    (pre digits post : List Char) (v : Char)
    (hv : isV v = true) (hne : digits ≠ [])
    (hdig : ∀ x ∈ digits, isDigitCh x = true)
    (hpost : ∀ x ∈ post.take 1, isDigitCh x = false)
    (hpre : hasVDigit (pre ++ [v]) = false)
    (hp : p.data = pre ++ v :: (digits ++ post)) :
    versionFromPath (some p) = digitsToNat digits ∧
      versionFromPath none = 1 ∧
      ∀ q : String, hasVDigit q.data = false → versionFromPath (some q) = 1 := by
  refine ⟨?_, rfl, ?_⟩
  · have hpdata : p.data ≠ [] := by
      rw [hp]
      cases pre <;> simp
    have hpne : ¬ p = "" := by
      intro he
      subst he
      exact hpdata rfl
    have hsearch : reSearchVNum p.data = some (digitsToNat digits) := by
      rw [hp]
      exact reSearch_first v digits post hv hne hdig hpost pre hpre
    simp [versionFromPath, hpne, hsearch]
  · intro q hq
    by_cases hqe : q = ""
    · subst hqe; rfl
    · simp [versionFromPath, hqe, reSearch_none q.data hq]

/-- Witness for C7: the path `scene.v012.ma` yields version `12`. -/
theorem validate_version_from_path_witness :
    ("scene.v012.ma" : String).data =
        ['s', 'c', 'e', 'n', 'e', '.'] ++ 'v' :: (['0', '1', '2'] ++ ['.', 'm', 'a']) ∧
      versionFromPath (some "scene.v012.ma") = 12 ∧
      versionFromPath none = 1 ∧
      versionFromPath (some "scene_no_version.ma") = 1 := by
  have h := validate_version_from_path "scene.v012.ma"
    ['s', 'c', 'e', 'n', 'e', '.'] ['0', '1', '2'] ['.', 'm', 'a'] 'v'
    (by decide) (by decide) (by decide) (by decide) (by decide) (by decide)
  refine ⟨by decide, ?_, h.2.1, ?_⟩
  · rw [h.1]
    decide
  · exact h.2.2 "scene_no_version.ma" (by decide)

end TkConfigUnreal
